import Mathlib

/-!
Verification of the DC-DC converter CAN control repository.

The development shallowly embeds the three core pieces of the repository:

* `dcdc_controller.py` — the converter controller (frame construction for
  start/stop/mode/setpoint requests, and the receive-side cache update);
* `expand_dbc.py` — the offline multi-unit catalog expansion;
* `can_handler.py` — the generic CAN handler's receive path.

Python floats are modelled as exact rationals, CAN frames as structured
records carrying the signal values the source passes to the codec, and the
line-oriented DBC text as a list of structured line records mirroring the
fields the source extracts from each recognized line shape.  Python's
`str.replace` / `in` substring operations are modelled character-exactly
on `List Char` (for the non-empty patterns the source uses).
-/

namespace DCDC

/-! ### Python primitives: truncating int(), substring test, str.replace -/

/-- Python `int()` applied to an exact rational: truncation toward zero. -/
def pyInt (q : ℚ) : ℤ := if 0 ≤ q then ⌊q⌋ else ⌈q⌉

/-- Python `needle in hay` on character lists. -/
def containsSub : List Char → List Char → Bool
  | [], needle => needle.isEmpty
  | h :: t, needle => needle.isPrefixOf (h :: t) || containsSub t needle

/-- Python `needle in hay` on strings. -/
def strContainsS (hay needle : String) : Bool :=
  containsSub hay.toList needle.toList

/-- Worker for Python `hay.replace(needle, repl)`: scans `hay` left to right;
a positive `skip` count drops characters already covered by a match. -/
def replGo (needle repl : List Char) : ℕ → List Char → List Char
  | _, [] => []
  | skip + 1, _ :: t => replGo needle repl skip t
  | 0, h :: t =>
    if !needle.isEmpty && needle.isPrefixOf (h :: t) then
      repl ++ replGo needle repl (needle.length - 1) t
    else
      h :: replGo needle repl 0 t

/-- Python `hay.replace(needle, repl)` for the non-empty needles the source
uses (left-to-right, non-overlapping). -/
def strReplaceS (hay needle repl : String) : String :=
  ⟨replGo needle.toList repl.toList 0 hay.toList⟩

/-! ### dcdc_controller.py: enumerations -/

/-- `ConverterMode(IntEnum)` from `dcdc_controller.py`. -/
inductive ConverterMode
  | NOT_SET
  | BUS1_TO_BUS2
  | BUS2_TO_BUS1
  | BIDIRECTIONAL
deriving DecidableEq

/-- Numeric value of each `ConverterMode` member. -/
def ConverterMode.toNat : ConverterMode → ℕ
  | .NOT_SET => 0
  | .BUS1_TO_BUS2 => 1
  | .BUS2_TO_BUS1 => 2
  | .BIDIRECTIONAL => 3

/-- `ControlType(IntEnum)` from `dcdc_controller.py`. -/
inductive ControlType
  | NOT_SET
  | V_BUS2
  | V_BUS1
  | I_BUS2
  | I_BUS1
  | P_BUS2
  | P_BUS1
  | V_BUS2_ILIM
  | V_BUS1_ILIM
deriving DecidableEq

/-- Numeric value of each `ControlType` member. -/
def ControlType.toNat : ControlType → ℕ
  | .NOT_SET => 0
  | .V_BUS2 => 1
  | .V_BUS1 => 2
  | .I_BUS2 => 3
  | .I_BUS1 => 4
  | .P_BUS2 => 5
  | .P_BUS1 => 6
  | .V_BUS2_ILIM => 7
  | .V_BUS1_ILIM => 8

/-! ### dcdc_controller.py: outbound frames -/

/-- Signal values the controller hands to `message.encode` for the two
outbound message kinds the verified claims mention. -/
inductive Payload
  | mode (converterModeReq : ℕ) (controlTypeReq : ℕ)
  | control (startCommand : ℕ) (setpointReq : ℤ) (currentLimitReq : ℚ)
deriving DecidableEq

/-- One outbound CAN frame: the catalog message name it is encoded against
together with the signal values written into it. -/
structure TxFrame where
  msgName : String
  payload : Payload
deriving DecidableEq

/-- A decoded signal record (`dict` of signal name to physical value). -/
abbrev DecodedData := List (String × ℚ)

/-- The controller's per-session cache (`self.measurements`, `self.errors`,
`self.warnings`, `self.regulation_info`, `self.control_info`); the
`measurements` dict is split into its four keys. -/
structure Cache where
  measCurrent : Option DecodedData
  measVoltage : Option DecodedData
  measPower : Option DecodedData
  measTemperature : Option DecodedData
  errors : DecodedData
  warnings : ℚ
  regulationInfo : DecodedData
  controlInfo : DecodedData
deriving DecidableEq

/-- Cache contents set up by `DCDCController.__init__`. -/
def initCache : Cache :=
  { measCurrent := none
    measVoltage := none
    measPower := none
    measTemperature := none
    errors := [ ("critical", 0), ("functional", 0)]
    warnings := 0
    regulationInfo := []
    controlInfo := [] }

/-- Mutable state of one `DCDCController` instance. -/
structure ControllerState where
  dcdc_id : ℕ
  cache : Cache
deriving DecidableEq

/-- `self.dcdc_suffix = f'_{dcdc_id}' if dcdc_id > 0 else ''`. -/
def dcdcSuffix (dcdc_id : ℕ) : String :=
  if 0 < dcdc_id then "_" ++ toString dcdc_id else ""

/-- `DCDCController._get_message_name`. -/
def getMessageName (st : ControllerState) (base : String) : String :=
  base ++ dcdcSuffix st.dcdc_id

/-- `DCDCController.set_mode`: returns the updated state together with the
frames sent on the bus. -/
def set_mode (st : ControllerState) (converter_mode : ConverterMode)
    (control_type : ControlType) : ControllerState × List TxFrame :=
  (st, [ ⟨getMessageName st "DCDC_ModeRequest",
          Payload.mode converter_mode.toNat control_type.toNat⟩])

/-- Raw setpoint conversion in `DCDCController.start_converter`
(lines 124–131 of `dcdc_controller.py`). -/
def setpointRaw (control_type : ControlType) (setpoint : ℚ) : ℤ :=
  if control_type ∈ [ ControlType.V_BUS1, ControlType.V_BUS2,
                      ControlType.V_BUS1_ILIM, ControlType.V_BUS2_ILIM] then
    pyInt (setpoint * 10)
  else if control_type ∈ [ ControlType.I_BUS1, ControlType.I_BUS2] then
    pyInt (setpoint * 10)
  else
    pyInt setpoint

/-- `DCDCController.start_converter`: first `set_mode`, then the control
request with `startCommand = 1`. -/
def start_converter (st : ControllerState) (setpoint : ℚ)
    (control_type : ControlType) (converter_mode : ConverterMode)
    (current_limit : ℚ) : ControllerState × List TxFrame :=
  let m := set_mode st converter_mode control_type
  (m.1, m.2 ++
    [ ⟨getMessageName m.1 "DCDC_ControlRequest",
       Payload.control 1 (setpointRaw control_type setpoint) current_limit⟩])

/-- `DCDCController.stop_converter`. -/
def stop_converter (st : ControllerState) : ControllerState × List TxFrame :=
  (st, [ ⟨getMessageName st "DCDC_ControlRequest", Payload.control 0 0 0⟩])

/-- `DCDCController.set_setpoint`. -/
def set_setpoint (st : ControllerState) (setpoint : ℚ)
    (current_limit : ℚ) : ControllerState × List TxFrame :=
  (st, [ ⟨getMessageName st "DCDC_ControlRequest",
          Payload.control 1 (pyInt setpoint) current_limit⟩])

/-! ### Inbound frames and the catalog view used on the receive path -/

/-- An inbound `can.Message`: arbitration id, payload bytes, timestamp. -/
structure RxFrame where
  arbitration_id : ℕ
  data : List ℕ
  timestamp : ℚ
deriving DecidableEq

/-- The catalog's view of one message, as used on the receive path: its
frame id, its name, and its (fallible) payload decoder. -/
structure CatMessage where
  frame_id : ℕ
  name : String
  decode : List ℕ → Option DecodedData

/-- Python `decoded.get(key, dflt)`. -/
def dictGet (d : DecodedData) (key : String) (dflt : ℚ) : ℚ :=
  match d.find? (fun p => p.1 == key) with
  | some p => p.2
  | none => dflt

/-- Cache update of `DCDCController.receive_messages` (lines 326–343):
the `elif` chain dispatching on message-name substrings. -/
def classify (c : Cache) (msgName : String) (decoded : DecodedData) : Cache :=
  if strContainsS msgName "CurrentMeasures" then
    { c with measCurrent := some decoded }
  else if strContainsS msgName "VoltageMeasures" then
    { c with measVoltage := some decoded }
  else if strContainsS msgName "PowerMeasures" then
    { c with measPower := some decoded }
  else if strContainsS msgName "TemperatureMeasures" then
    { c with measTemperature := some decoded }
  else if strContainsS msgName "Errors" then
    { c with errors := decoded }
  else if strContainsS msgName "Warnings" then
    { c with warnings := dictGet decoded "warnings" 0 }
  else if strContainsS msgName "RegulationInformation" then
    { c with regulationInfo := decoded }
  else if strContainsS msgName "ControlInformation" then
    { c with controlInfo := decoded }
  else c

/-- Body of the `receive_messages` loop for one inbound frame: catalog
lookup by frame id, decode, cache update; a `KeyError` or `DecodeError`
(modelled as `none`) is swallowed and leaves everything unchanged.  Returns
the new cache and the entry appended to the decoded-messages list, if any. -/
def processFrame (db : List CatMessage) (c : Cache) (fr : RxFrame) :
    Cache × Option (String × DecodedData) :=
  match db.find? (fun m => m.frame_id == fr.arbitration_id) with
  | none => (c, none)
  | some m =>
    match m.decode fr.data with
    | none => (c, none)
    | some decoded => (classify c m.name decoded, some (m.name, decoded))

/-- `DCDCController.receive_messages` over the frames obtained inside the
timeout budget; a `none` entry is a `bus.recv` timeout (skipped). -/
def receive_messages (db : List CatMessage) (c : Cache)
    (frames : List (Option RxFrame)) : Cache × List (String × DecodedData) :=
  frames.foldl
    (fun acc ofr =>
      match ofr with
      | none => acc
      | some fr =>
        let r := processFrame db acc.1 fr
        (r.1, acc.2 ++ (match r.2 with | some x => [ x] | none => [])))
    (c, [])

/-- Number of cache categories on which two caches differ. -/
def categoriesChanged (c c' : Cache) : ℕ :=
  (if c.measCurrent = c'.measCurrent then 0 else 1) +
  (if c.measVoltage = c'.measVoltage then 0 else 1) +
  (if c.measPower = c'.measPower then 0 else 1) +
  (if c.measTemperature = c'.measTemperature then 0 else 1) +
  (if c.errors = c'.errors then 0 else 1) +
  (if c.warnings = c'.warnings then 0 else 1) +
  (if c.regulationInfo = c'.regulationInfo then 0 else 1) +
  (if c.controlInfo = c'.controlInfo then 0 else 1)

/-! ### can_handler.py: `CANBusHandler.receive_message` -/

/-- Uppercase hexadecimal digit. -/
def hexDigitU (n : ℕ) : Char :=
  if n < 10 then Char.ofNat (48 + n) else Char.ofNat (55 + n)

/-- Lowercase hexadecimal digit. -/
def hexDigitL (n : ℕ) : Char :=
  if n < 10 then Char.ofNat (48 + n) else Char.ofNat (87 + n)

/-- Fuelled most-significant-first uppercase hex digits of `n`. -/
def hexDigitsAux : ℕ → ℕ → List Char
  | 0, _ => []
  | fuel + 1, n =>
    if n < 16 then [ hexDigitU n]
    else hexDigitsAux fuel (n / 16) ++ [ hexDigitU (n % 16)]

/-- Python `f"{n:X}"` for a natural number. -/
def hexUpper (n : ℕ) : String := ⟨hexDigitsAux (n + 1) n⟩

/-- Python `f"{b:02x}"` for one byte. -/
def byteHex (b : ℕ) : String := ⟨[ hexDigitL (b / 16 % 16), hexDigitL (b % 16)]⟩

/-- Python `data.hex()`. -/
def bytesHex (data : List ℕ) : String := String.join (data.map byteHex)

/-- The `CANMessage` dataclass of `can_handler.py`. -/
structure CANMessage where
  can_id : ℕ
  name : String
  data : DecodedData
  data_hex : String
  timestamp : ℚ
deriving Repr

/-- `CANBusHandler.receive_message`: `db` is the loaded catalog (or `none`
when no DBC is loaded) and `msg` the result of `bus.recv` (`none` on
timeout).  The name starts as the hex rendering of the id and is replaced
by the catalog name once the lookup succeeds — even if decoding then
fails, matching the `try`/`except` ordering of the source. -/
def receive_message (db : Option (List CatMessage)) (msg : Option RxFrame) :
    Option CANMessage :=
  match msg with
  | none => none
  | some m =>
    match db.bind (fun d => d.find? (fun c => c.frame_id == m.arbitration_id)) with
    | none =>
      some ⟨m.arbitration_id, "0x" ++ hexUpper m.arbitration_id, [],
            bytesHex m.data, m.timestamp⟩
    | some dbm =>
      match dbm.decode m.data with
      | none =>
        some ⟨m.arbitration_id, dbm.name, [], bytesHex m.data, m.timestamp⟩
      | some dec =>
        some ⟨m.arbitration_id, dbm.name, dec, bytesHex m.data, m.timestamp⟩

/-! ### expand_dbc.py: structured DBC lines

Each value mirrors one textual line of the DBC file, carrying exactly the
fields `expand_dbc.py` extracts from that line shape; `other` covers every
line matched by none of the `startswith` tests, and `sg` keeps the raw
text of a signal line (which the source manipulates only via substring
containment and `str.replace`). -/

/-- One line of the DBC file, classified the way `expand_dbc.py` does. -/
inductive DbcLine
  | version (s : String)
  | bu (nodes : List String)
  | bo (can_id : ℕ) (name : String) (dlc : String) (sender : String)
  | sg (content : String)
  | cmBo (can_id : ℕ) (comment : String)
  | cmSg (can_id : ℕ) (sigName : String) (comment : String)
  | cmBuPrimary (comment : String)
  | baStationPrimary (s : String)
  | baBo (attr : String) (can_id : ℕ) (rest : String)
  | val (can_id : ℕ) (rest : String)
  | blank
  | other (s : String)
deriving DecidableEq

/-- A message collected by `parse_messages` (the unused raw `line` entry
of the Python dict is dropped). -/
structure ParsedMsg where
  can_id : ℕ
  name : String
  dlc : String
  sender : String
  signals : List String
deriving DecidableEq

/-- Is this line a ` SG_` signal line? -/
def isSg : DbcLine → Bool
  | .sg _ => true
  | _ => false

/-- Close the message currently being collected (its signals were
accumulated in reverse). -/
def closeMsg : Option ParsedMsg → List ParsedMsg
  | none => []
  | some m => [ { m with signals := m.signals.reverse }]

/-- Worker for `parse_messages`: a `BO_` line opens a message, the ` SG_`
lines immediately following it are collected, and any other line closes
the open message. -/
def parseGo : Option ParsedMsg → List DbcLine → List ParsedMsg
  | cur, [] => closeMsg cur
  | cur, .bo id name dlc sender :: rest =>
    closeMsg cur ++ parseGo (some ⟨id, name, dlc, sender, []⟩) rest
  | some m, .sg s :: rest =>
    parseGo (some { m with signals := s :: m.signals }) rest
  | none, .sg _ :: rest => parseGo none rest
  | cur, _ :: rest => closeMsg cur ++ parseGo none rest

/-- `parse_messages` from `expand_dbc.py`. -/
def parse_messages (lines : List DbcLine) : List ParsedMsg :=
  parseGo none lines

/-- Signals of the first parsed message with the given id
(`for msg in messages: if msg['can_id'] == can_id`), or `[]`. -/
def sigsOf (msgs : List ParsedMsg) (id : ℕ) : List String :=
  match msgs.find? (fun m => m.can_id == id) with
  | some m => m.signals
  | none => []

/-- `f'_{unit_id}' if unit_id > 0 else ''`. -/
def unitSuffix (k : ℕ) : String :=
  if 0 < k then "_" ++ toString k else ""

/-- Per-unit rewriting of one signal line (lines 112–114 of
`expand_dbc.py`). -/
def unitSigLine (k : ℕ) (s : String) : String :=
  if strContainsS s "DCDC_Primary" ∧ 0 < k then
    strReplaceS s "DCDC_Primary" ("DCDC_Primary_" ++ toString k)
  else s

/-- The block of lines emitted for unit `k` of one subject message
(lines 99–117 of `expand_dbc.py`): the rewritten `BO_` line, the
rewritten signal lines, and the trailing blank line. -/
def unitCopy (id : ℕ) (name dlc sender : String) (sigs : List String)
    (k : ℕ) : List DbcLine :=
  DbcLine.bo (id + k) (name ++ unitSuffix k) dlc
      (strReplaceS sender "DCDC_Primary" ("DCDC_Primary" ++ unitSuffix k)) ::
    (sigs.map (fun s => DbcLine.sg (unitSigLine k s)) ++ [ DbcLine.blank])

/-- The hard-coded replacement node list of line 77 of `expand_dbc.py`. -/
def fixedBuNodes : List String :=
  [ "SUPERVISER", "DCDC_Primary", "DCDC_Primary_1", "DCDC_Primary_2"]

/-- The frame-id range recognized as DCDC messages
(`2148532224 <= can_id <= 2305818624`, used identically at lines 142, 157,
189 and 213 of `expand_dbc.py`). -/
def isDCDCId (id : ℕ) : Bool :=
  decide (2148532224 ≤ id) && decide (id ≤ 2305818624)

/-- The subject-message test of line 97 of `expand_dbc.py`:
`'DCDC_Primary' in sender or 'DCDC' in msg_name`. -/
def isSubjectMsg (name sender : String) : Bool :=
  strContainsS sender "DCDC_Primary" || strContainsS name "DCDC"

/-- Signal-line handling mode of the main loop: after an expanded subject
message its original signal lines are skipped; after a copied non-subject
message they are copied through; otherwise a stray signal line falls into
the default copy-as-is branch. -/
inductive SgMode
  | normal
  | skipSig
  | copySig
deriving DecidableEq

/-- The main rewriting loop of `expand_dbc_for_multiple_units`
(lines 64–225 of `expand_dbc.py`), as a line-consuming state machine. -/
def expandGo (N : ℕ) (msgs : List ParsedMsg) :
    SgMode → List DbcLine → List DbcLine
  | _, [] => []
  | mode, .sg s :: rest =>
    match mode with
    | .skipSig => expandGo N msgs .skipSig rest
    | .copySig => DbcLine.sg s :: expandGo N msgs .copySig rest
    | .normal => DbcLine.sg s :: expandGo N msgs .normal rest
  | _, .version s :: rest => DbcLine.version s :: expandGo N msgs .normal rest
  | _, .bu _ :: rest => DbcLine.bu fixedBuNodes :: expandGo N msgs .normal rest
  | _, .bo id name dlc sender :: rest =>
    if isSubjectMsg name sender then
      (List.range N).flatMap (unitCopy id name dlc sender (sigsOf msgs id)) ++
        expandGo N msgs .skipSig rest
    else
      DbcLine.bo id name dlc sender :: expandGo N msgs .copySig rest
  | _, .cmBo id c :: rest =>
    (if isDCDCId id then (List.range N).map (fun k => DbcLine.cmBo (id + k) c)
     else [ DbcLine.cmBo id c]) ++ expandGo N msgs .normal rest
  | _, .cmSg id sig c :: rest =>
    (if isDCDCId id then
       (List.range N).map (fun k => DbcLine.cmSg (id + k) sig c)
     else [ DbcLine.cmSg id sig c]) ++ expandGo N msgs .normal rest
  | _, .cmBuPrimary c :: rest =>
    DbcLine.cmBuPrimary c ::
      DbcLine.other "CM_ BU_ DCDC_Primary_1 \x22DCDC_Converter Primary_1 CAN interface\x22;" ::
      DbcLine.other "CM_ BU_ DCDC_Primary_2 \x22DCDC_Converter Primary_2 CAN interface\x22;" ::
      expandGo N msgs .normal rest
  | _, .baStationPrimary s :: rest =>
    DbcLine.baStationPrimary s ::
      DbcLine.other "BA_ \x22NmStationAddress\x22 BU_ DCDC_Primary_1 1;" ::
      DbcLine.other "BA_ \x22NmStationAddress\x22 BU_ DCDC_Primary_2 2;" ::
      expandGo N msgs .normal rest
  | _, .baBo attr id r :: rest =>
    (if isDCDCId id then
       (List.range N).map (fun k => DbcLine.baBo attr (id + k) r)
     else [ DbcLine.baBo attr id r]) ++ expandGo N msgs .normal rest
  | _, .val id r :: rest =>
    (if isDCDCId id then (List.range N).map (fun k => DbcLine.val (id + k) r)
     else [ DbcLine.val id r]) ++ expandGo N msgs .normal rest
  | _, .blank :: rest => DbcLine.blank :: expandGo N msgs .normal rest
  | _, .other s :: rest => DbcLine.other s :: expandGo N msgs .normal rest

/-- `expand_dbc_for_multiple_units` from `expand_dbc.py` (file I/O
stripped): parse the messages, then rewrite the lines. -/
def expand_dbc_for_multiple_units (num_units : ℕ) (lines : List DbcLine) :
    List DbcLine :=
  expandGo num_units (parse_messages lines) .normal lines

end DCDC

namespace DCDC

/-! ### Helper lemmas about the `str.replace` model -/

/-- A boolean prefix is an actual prefix: the needle followed by the rest
of the haystack reassembles the haystack. -/
theorem isPrefixOf_append_drop (p : List Char) :
    ∀ l : List Char, p.isPrefixOf l = true → p ++ l.drop p.length = l := by
  induction p with
  | nil => intro l _; simp
  | cons a as ih =>
    intro l h
    cases l with
    | nil => simp [List.isPrefixOf] at h
    | cons b bs =>
      simp only [List.isPrefixOf, Bool.and_eq_true, beq_iff_eq] at h
      simp only [List.length_cons, List.cons_append, List.drop_succ_cons, h.1,
        List.cons.injEq, true_and]
      exact ih bs h.2

/-- `l.isPrefixOf l` holds. -/
theorem isPrefixOf_self (l : List Char) : l.isPrefixOf l = true := by
  induction l with
  | nil => rfl
  | cons a t ih => simp [List.isPrefixOf, ih]

/-- A pending skip count drops exactly that many characters before the
scan resumes. -/
theorem replGo_skip_drop (needle repl : List Char) :
    ∀ (k : ℕ) (l : List Char),
      replGo needle repl k l = replGo needle repl 0 (l.drop k) := by
  intro k
  induction k with
  | zero => intro l; simp
  | succ k ih =>
    intro l
    cases l with
    | nil => rfl
    | cons a t => simpa using ih t

/-- Replacing a pattern by itself is the identity. -/
theorem replGo_self (needle : List Char) :
    ∀ (fuel : ℕ) (l : List Char), l.length ≤ fuel →
      replGo needle needle 0 l = l := by
  intro fuel
  induction fuel with
  | zero =>
    intro l h
    interval_cases hl : l.length
    · cases l with
      | nil => rfl
      | cons a t => simp at hl
  | succ f ih =>
    intro l h
    cases l with
    | nil => rfl
    | cons a t =>
      by_cases hc : (!needle.isEmpty && needle.isPrefixOf (a :: t)) = true
      · have hne : needle ≠ [] := by
          rcases hc with hc
          simp only [Bool.and_eq_true, Bool.not_eq_true'] at hc
          simpa [List.isEmpty_iff] using hc.1
        have hpre : needle.isPrefixOf (a :: t) = true := by
          simp only [Bool.and_eq_true] at hc
          exact hc.2
        have hlen : 1 ≤ needle.length := by
          cases needle with
          | nil => exact absurd rfl hne
          | cons x xs => simp
        have hdrop : t.drop (needle.length - 1) = (a :: t).drop needle.length := by
          cases hn : needle.length with
          | zero => omega
          | succ m => simp [hn]
        rw [show replGo needle needle 0 (a :: t) =
              needle ++ replGo needle needle (needle.length - 1) t by
            simp [replGo, hc]]
        rw [replGo_skip_drop, hdrop,
          ih ((a :: t).drop needle.length) (by simp at h ⊢; omega)]
        exact isPrefixOf_append_drop needle (a :: t) hpre
      · rw [show replGo needle needle 0 (a :: t) =
              a :: replGo needle needle 0 t by simp [replGo, hc]]
        rw [ih t (by simpa using Nat.le_of_succ_le_succ h)]

/-- If the pattern does not occur in the haystack, replacement is the
identity. -/
theorem replGo_not_contains (needle repl : List Char) :
    ∀ l : List Char, containsSub l needle = false →
      replGo needle repl 0 l = l := by
  intro l
  induction l with
  | nil => intro _; rfl
  | cons a t ih =>
    intro h
    simp only [containsSub, Bool.or_eq_false_iff] at h
    rw [show replGo needle repl 0 (a :: t) = a :: replGo needle repl 0 t by
      simp [replGo, h.1]]
    rw [ih h.2]

/-- Replacing a non-empty pattern inside the pattern itself yields the
replacement. -/
theorem replGo_needle (needle repl : List Char) (hn : needle ≠ []) :
    replGo needle repl 0 needle = repl := by
  cases needle with
  | nil => exact absurd rfl hn
  | cons a t =>
    rw [show replGo (a :: t) repl 0 (a :: t) =
          repl ++ replGo (a :: t) repl ((a :: t).length - 1) t by
        simp [replGo, isPrefixOf_self (a :: t)]]
    rw [replGo_skip_drop]
    simp [replGo]

/-- String form of `replGo_self`. -/
theorem strReplace_self (s needle : String) :
    strReplaceS s needle needle = s := by
  cases s with
  | mk data =>
    show String.mk (replGo needle.toList needle.toList 0 data) = ⟨data⟩
    rw [replGo_self needle.toList data.length data le_rfl]

/-- String form of `replGo_not_contains`. -/
theorem strReplace_not_contains (s needle repl : String)
    (h : strContainsS s needle = false) : strReplaceS s needle repl = s := by
  cases s with
  | mk data =>
    show String.mk (replGo needle.toList repl.toList 0 data) = ⟨data⟩
    rw [replGo_not_contains needle.toList repl.toList data h]

/-- String form of `replGo_needle`. -/
theorem strReplace_needle (needle repl : String) (hn : needle.toList ≠ []) :
    strReplaceS needle needle repl = repl := by
  show String.mk (replGo needle.toList repl.toList 0 needle.toList) = repl
  rw [replGo_needle needle.toList repl.toList hn]
  cases repl with
  | mk data => rfl

/-! ### Claims C1–C3 -/

/-- C1: `start_converter` sends the mode-selection frame first and then the
control-request frame with `startCommand = 1`, whose raw setpoint is
`int(setpoint * 10)` for the voltage and current control types
(V_BUS1, V_BUS2, V_BUS1_ILIM, V_BUS2_ILIM, I_BUS1, I_BUS2) and
`int(setpoint)` otherwise (in particular for the power types). -/
theorem start_converter_frames (st : ControllerState) (sp : ℚ)
    (ct : ControlType) (cm : ConverterMode) (lim : ℚ) :
    (start_converter st sp ct cm lim).2 =
      [ ⟨getMessageName st "DCDC_ModeRequest", Payload.mode cm.toNat ct.toNat⟩,
        ⟨getMessageName st "DCDC_ControlRequest",
         Payload.control 1
           (if ct ∈ [ ControlType.V_BUS1, ControlType.V_BUS2,
                      ControlType.V_BUS1_ILIM, ControlType.V_BUS2_ILIM,
                      ControlType.I_BUS1, ControlType.I_BUS2] then
              pyInt (sp * 10)
            else pyInt sp)
           lim⟩] := by
  cases ct <;> rfl

/-- C2: `set_setpoint` sends, in every controller state (the freshly
initialized idle state included), exactly one control-request frame whose
`startCommand` field is `1`, and leaves the state unchanged — so calling it
while idle starts the converter. -/
theorem set_setpoint_always_starts (st : ControllerState) (sp lim : ℚ) :
    set_setpoint st sp lim =
      (st, [ ⟨getMessageName st "DCDC_ControlRequest",
              Payload.control 1 (pyInt sp) lim⟩]) := by
  rfl

/-- C3: `stop_converter` is accepted in every controller state, leaves the
state unchanged, always sends the control-request frame with
`startCommand = 0`, zero setpoint and zero current limit, and two
consecutive calls produce structurally identical frames. -/
theorem stop_converter_idempotent (st : ControllerState) :
    (stop_converter st).2 =
      [ ⟨getMessageName st "DCDC_ControlRequest", Payload.control 0 0 0⟩] ∧
    (stop_converter (stop_converter st).1).2 = (stop_converter st).2 ∧
    (stop_converter st).1 = st := by
  exact ⟨rfl, rfl, rfl⟩

/-! ### Claims C8–C10 -/

/-- C8: an inbound frame whose id is absent from the catalog, or whose
payload fails to decode, is skipped by `receive_messages` without touching
any cache category and without being reported. -/
theorem receive_skips_unknown_frames (db : List CatMessage) (c : Cache)
    (fr : RxFrame)
    (h : db.find? (fun m => m.frame_id == fr.arbitration_id) = none ∨
         ∃ m, db.find? (fun m' => m'.frame_id == fr.arbitration_id) = some m ∧
              m.decode fr.data = none) :
    processFrame db c fr = (c, none) := by
  rcases h with h | ⟨m, hm, hd⟩
  · simp [processFrame, h]
  · simp [processFrame, hm, hd]

/-- Witness for C8 at a concrete input: an empty catalog. -/
theorem receive_skips_unknown_frames_witness :
    processFrame [] initCache ⟨100, [ 1, 2], 0⟩ = (initCache, none) :=
  receive_skips_unknown_frames [] initCache ⟨100, [ 1, 2], 0⟩ (Or.inl rfl)

/-- Each branch of the `classify` chain rewrites a single cache field. -/
theorem classify_changes_at_most_one (c : Cache) (name : String)
    (d : DecodedData) : categoriesChanged c (classify c name d) ≤ 1 := by
  unfold classify
  repeat' split
  all_goals simp only [categoriesChanged]
  all_goals (repeat' split) <;> simp_all

/-- C9: a successfully decoded frame is classified by message-name
substring and overwrites the cached value of at most one of the eight
cache categories; every other category is untouched. -/
theorem receive_classifies_into_one_category (db : List CatMessage)
    (c : Cache) (fr : RxFrame) (m : CatMessage) (d : DecodedData)
    (hm : db.find? (fun m' => m'.frame_id == fr.arbitration_id) = some m)
    (hd : m.decode fr.data = some d) :
    processFrame db c fr = (classify c m.name d, some (m.name, d)) ∧
    categoriesChanged c (classify c m.name d) ≤ 1 := by
  constructor
  · simp [processFrame, hm, hd]
  · exact classify_changes_at_most_one c m.name d

/-- Witness for C9 at a concrete input: a one-message catalog whose
decoder always succeeds. -/
theorem receive_classifies_into_one_category_witness :
    processFrame [ ⟨500, "DCDC_CurrentMeasures", fun _ => some [ ("iBus1", 5)]⟩]
        initCache ⟨500, [ 7], 0⟩ =
      (classify initCache "DCDC_CurrentMeasures" [ ("iBus1", 5)],
       some ("DCDC_CurrentMeasures", [ ("iBus1", 5)])) ∧
    categoriesChanged initCache
      (classify initCache "DCDC_CurrentMeasures" [ ("iBus1", 5)]) ≤ 1 :=
  receive_classifies_into_one_category
    [ ⟨500, "DCDC_CurrentMeasures", fun _ => some [ ("iBus1", 5)]⟩]
    initCache ⟨500, [ 7], 0⟩ _ _ rfl rfl

/-- C10: the CAN handler's `receive_message` does not skip frames that are
absent from the loaded catalog (or arrive with no catalog loaded): it
returns a `CANMessage` whose name is the hexadecimal rendering of the id
and whose decoded map is empty; `none` is returned exactly on a receive
timeout, never for a received frame. -/
theorem can_handler_keeps_unknown_frames (db : Option (List CatMessage))
    (fr : RxFrame)
    (h : db.bind (fun d => d.find? (fun c => c.frame_id == fr.arbitration_id))
           = none) :
    receive_message db none = none ∧
    (receive_message db (some fr)).isSome = true ∧
    receive_message db (some fr) =
      some ⟨fr.arbitration_id, "0x" ++ hexUpper fr.arbitration_id, [],
            bytesHex fr.data, fr.timestamp⟩ := by
  refine ⟨rfl, ?_, ?_⟩
  · unfold receive_message
    rcases hfind : db.bind
        (fun d => d.find? (fun c => c.frame_id == fr.arbitration_id)) with _ | dbm
    · simp [hfind]
    · rcases hdec : dbm.decode fr.data with _ | dec <;> simp [hfind, hdec]
  · simp [receive_message, h]

/-- Witness for C10 at a concrete input: a loaded but empty catalog and
the frame id 255 (hex name `0xFF`, payload byte `0xab`). -/
theorem can_handler_keeps_unknown_frames_witness :
    receive_message (some []) none = none ∧
    (receive_message (some []) (some ⟨255, [ 171], 1⟩)).isSome = true ∧
    receive_message (some []) (some ⟨255, [ 171], 1⟩) =
      some ⟨255, "0x" ++ hexUpper 255, [], bytesHex [ 171], 1⟩ :=
  can_handler_keeps_unknown_frames (some []) ⟨255, [ 171], 1⟩ rfl

/-! ### Claims C4–C7 -/

/-- C4 counterexample: a subject message (its name contains `DCDC`) whose
sender is the supervisory node is multiplied, but copy `k = 1` keeps the
sender `SUPERVISER` unchanged instead of renaming it to the claimed
`base sender + "_" + 1`. -/
theorem expansion_sender_rule_counterexample :
    expand_dbc_for_multiple_units 2
        [ DbcLine.bo 2148532224 "DCDC_ControlRequest" "8" "SUPERVISER"]
      = [ DbcLine.bo 2148532224 "DCDC_ControlRequest" "8" "SUPERVISER",
          DbcLine.blank,
          DbcLine.bo 2148532225 "DCDC_ControlRequest_1" "8" "SUPERVISER",
          DbcLine.blank] ∧
    ("SUPERVISER" : String) ≠ "SUPERVISER" ++ "_" ++ toString 1 := by
  constructor
  · decide
  · decide

/-- C4 (amended): a subject message is expanded into the `unitCopy` blocks
for `k = 0, …, N-1`; copy `k` has frame id `base + k`, copy `0` is a
verbatim copy of the base message (name, sender and signal lines
unchanged), and for `k > 0` the name becomes `base_name ++ "_" ++ k`
while the sender and each signal line undergo substring replacement of
`DCDC_Primary` by `DCDC_Primary_k` — so the sender is renamed to
`base sender + "_" + k` exactly when it is the subject node itself, is
left unchanged when it does not contain the subject node's name, and
signal lines not mentioning the subject node are copied verbatim. -/
theorem expansion_subject_copy_shape (N : ℕ) (msgs : List ParsedMsg)
    (mode : SgMode) (id : ℕ) (name dlc sender : String)
    (rest : List DbcLine) (k : ℕ)
    (hsub : isSubjectMsg name sender = true) (hk : 0 < k) :
    expandGo N msgs mode (DbcLine.bo id name dlc sender :: rest)
      = (List.range N).flatMap
          (unitCopy id name dlc sender (sigsOf msgs id)) ++
        expandGo N msgs SgMode.skipSig rest ∧
    unitCopy id name dlc sender (sigsOf msgs id) 0
      = DbcLine.bo id name dlc sender ::
          ((sigsOf msgs id).map DbcLine.sg ++ [ DbcLine.blank]) ∧
    unitCopy id name dlc sender (sigsOf msgs id) k
      = DbcLine.bo (id + k) (name ++ "_" ++ toString k) dlc
          (strReplaceS sender "DCDC_Primary" ("DCDC_Primary_" ++ toString k)) ::
          ((sigsOf msgs id).map (fun s => DbcLine.sg (unitSigLine k s)) ++
            [ DbcLine.blank]) ∧
    (strContainsS sender "DCDC_Primary" = false →
      strReplaceS sender "DCDC_Primary" ("DCDC_Primary_" ++ toString k)
        = sender) ∧
    (sender = "DCDC_Primary" →
      strReplaceS sender "DCDC_Primary" ("DCDC_Primary_" ++ toString k)
        = "DCDC_Primary_" ++ toString k) ∧
    (∀ s : String, strContainsS s "DCDC_Primary" = false →
      unitSigLine k s = s) := by
  refine ⟨?_, ?_, ?_, ?_, ?_, ?_⟩
  · cases mode <;> simp [expandGo, hsub]
  · have h0 : unitSuffix 0 = "" := rfl
    simp [unitCopy, h0, strReplace_self, unitSigLine]
  · have hsuf : unitSuffix k = "_" ++ toString k := by
      simp [unitSuffix, hk]
    have hrepl : ("DCDC_Primary" : String) ++ ("_" ++ toString k)
        = "DCDC_Primary_" ++ toString k := by
      rw [← String.append_assoc]
      congr 1
    simp [unitCopy, hsuf, hrepl, String.append_assoc]
  · intro h
    exact strReplace_not_contains sender "DCDC_Primary" _ h
  · intro h
    subst h
    exact strReplace_needle "DCDC_Primary" _ (by decide)
  · intro s h
    simp [unitSigLine, h]

/-- Witness for C4 (amended) at a concrete input: the `k = 1` copy of a
subject message with supervisory sender and no signals. -/
theorem expansion_subject_copy_shape_witness :
    unitCopy 2148532224 "DCDC_ControlRequest" "8" "SUPERVISER" [] 1
      = [ DbcLine.bo 2148532225 "DCDC_ControlRequest_1" "8" "SUPERVISER",
          DbcLine.blank] :=
  (expansion_subject_copy_shape 3 [] SgMode.normal 2148532224
    "DCDC_ControlRequest" "8" "SUPERVISER" [] 1 (by decide) (by decide)).2.2.1

/-- C5 counterexample: a message whose sender is the supervisory
(non-subject) node but whose name contains `DCDC` is emitted three times
by a 3-unit expansion, not exactly once as the claim states. -/
theorem supervisory_sender_multiplied_counterexample :
    (expand_dbc_for_multiple_units 3
        [ DbcLine.bo 2148532300 "DCDC_Status" "8" "SUPERVISER"]).countP
        (fun l => match l with
          | DbcLine.bo _ _ _ s => s == "SUPERVISER"
          | _ => false) = 3 ∧ (3 : ℕ) ≠ 1 := by
  constructor
  · decide
  · decide

/-- C5 (amended): expanding a single-unit catalog with `unit_count = 3`
yields exactly 3 message definitions per original message satisfying the
subject test (sender contains `DCDC_Primary` or name contains `DCDC`),
with frame ids `base`, `base + 1`, `base + 2`; a message satisfying
neither condition — here a supervisory heartbeat — is copied through
unchanged exactly once, together with its signal lines. -/
theorem expansion_scenarioB :
    expand_dbc_for_multiple_units 3
        [ DbcLine.bu [ "SUPERVISER", "DCDC_Primary"],
          DbcLine.bo 2148532224 "DCDC_Control" "8" "DCDC_Primary",
          DbcLine.sg " SG_ sigA : 0|8@1+ (1,0) [0|255] \x22\x22 SUPERVISER",
          DbcLine.bo 100 "SUP_Heartbeat" "8" "SUPERVISER",
          DbcLine.sg " SG_ hb : 0|1@1+ (1,0) [0|1] \x22\x22 DCDC_Primary"]
      = [ DbcLine.bu fixedBuNodes,
          DbcLine.bo 2148532224 "DCDC_Control" "8" "DCDC_Primary",
          DbcLine.sg " SG_ sigA : 0|8@1+ (1,0) [0|255] \x22\x22 SUPERVISER",
          DbcLine.blank,
          DbcLine.bo 2148532225 "DCDC_Control_1" "8" "DCDC_Primary_1",
          DbcLine.sg " SG_ sigA : 0|8@1+ (1,0) [0|255] \x22\x22 SUPERVISER",
          DbcLine.blank,
          DbcLine.bo 2148532226 "DCDC_Control_2" "8" "DCDC_Primary_2",
          DbcLine.sg " SG_ sigA : 0|8@1+ (1,0) [0|255] \x22\x22 SUPERVISER",
          DbcLine.blank,
          DbcLine.bo 100 "SUP_Heartbeat" "8" "SUPERVISER",
          DbcLine.sg " SG_ hb : 0|1@1+ (1,0) [0|1] \x22\x22 DCDC_Primary"] ∧
    (expand_dbc_for_multiple_units 3
        [ DbcLine.bu [ "SUPERVISER", "DCDC_Primary"],
          DbcLine.bo 2148532224 "DCDC_Control" "8" "DCDC_Primary",
          DbcLine.sg " SG_ sigA : 0|8@1+ (1,0) [0|255] \x22\x22 SUPERVISER",
          DbcLine.bo 100 "SUP_Heartbeat" "8" "SUPERVISER",
          DbcLine.sg " SG_ hb : 0|1@1+ (1,0) [0|1] \x22\x22 DCDC_Primary"]).countP
        (fun l => match l with
          | DbcLine.bo i _ _ _ =>
            decide (2148532224 ≤ i) && decide (i ≤ 2148532226)
          | _ => false) = 3 ∧
    (expand_dbc_for_multiple_units 3
        [ DbcLine.bu [ "SUPERVISER", "DCDC_Primary"],
          DbcLine.bo 2148532224 "DCDC_Control" "8" "DCDC_Primary",
          DbcLine.sg " SG_ sigA : 0|8@1+ (1,0) [0|255] \x22\x22 SUPERVISER",
          DbcLine.bo 100 "SUP_Heartbeat" "8" "SUPERVISER",
          DbcLine.sg " SG_ hb : 0|1@1+ (1,0) [0|1] \x22\x22 DCDC_Primary"]).countP
        (fun l => l == DbcLine.bo 100 "SUP_Heartbeat" "8" "SUPERVISER") = 1 := by
  refine ⟨?_, ?_, ?_⟩
  · decide
  · decide
  · decide

/-- C6: a comment, attribute or value-table line keyed by a frame id in
the recognized DCDC range `[2148532224, 2305818624]` is expanded into `N`
copies with ids shifted by `+k` and the payload text preserved, while the
same line shapes with an out-of-range id pass through unmodified exactly
once; in the in-range case exactly `N` copies are emitted. -/
theorem metadata_lines_expansion (N : ℕ) (msgs : List ParsedMsg)
    (mode : SgMode) (id : ℕ) (c sig attr r : String)
    (rest : List DbcLine) :
    expandGo N msgs mode (DbcLine.cmBo id c :: rest)
      = (if isDCDCId id then
           (List.range N).map (fun k => DbcLine.cmBo (id + k) c)
         else [ DbcLine.cmBo id c]) ++ expandGo N msgs SgMode.normal rest ∧
    expandGo N msgs mode (DbcLine.cmSg id sig c :: rest)
      = (if isDCDCId id then
           (List.range N).map (fun k => DbcLine.cmSg (id + k) sig c)
         else [ DbcLine.cmSg id sig c]) ++ expandGo N msgs SgMode.normal rest ∧
    expandGo N msgs mode (DbcLine.baBo attr id r :: rest)
      = (if isDCDCId id then
           (List.range N).map (fun k => DbcLine.baBo attr (id + k) r)
         else [ DbcLine.baBo attr id r]) ++ expandGo N msgs SgMode.normal rest ∧
    expandGo N msgs mode (DbcLine.val id r :: rest)
      = (if isDCDCId id then
           (List.range N).map (fun k => DbcLine.val (id + k) r)
         else [ DbcLine.val id r]) ++ expandGo N msgs SgMode.normal rest ∧
    ((List.range N).map (fun k => DbcLine.cmBo (id + k) c)).length = N := by
  refine ⟨?_, ?_, ?_, ?_, by simp⟩ <;> cases mode <;> rfl

/-- C7 counterexample: with `unit_count = 2` the expanded node list is the
hard-coded four-node list, which adds two synthetic node names rather
than the claimed `N - 1 = 1`. -/
theorem node_list_counterexample :
    expand_dbc_for_multiple_units 2
        [ DbcLine.bu [ "SUPERVISER", "DCDC_Primary"]]
      = [ DbcLine.bu [ "SUPERVISER", "DCDC_Primary", "DCDC_Primary_1",
                       "DCDC_Primary_2"]] ∧
    ([ "SUPERVISER", "DCDC_Primary", "DCDC_Primary_1",
       "DCDC_Primary_2"] : List String).length
      ≠ ([ "SUPERVISER", "DCDC_Primary"] : List String).length + (2 - 1) := by
  constructor
  · decide
  · decide

/-- C7 (amended): for every `unit_count` and every original node list, the
`BU_` line is replaced by the fixed node list
`SUPERVISER DCDC_Primary DCDC_Primary_1 DCDC_Primary_2`, i.e. the two
synthetic three-unit node names are appended to the two expected original
nodes regardless of `unit_count`. -/
theorem node_list_hardcoded (N : ℕ) (msgs : List ParsedMsg) (mode : SgMode)
    (nodes : List String) (rest : List DbcLine) :
    expandGo N msgs mode (DbcLine.bu nodes :: rest)
      = DbcLine.bu fixedBuNodes :: expandGo N msgs SgMode.normal rest ∧
    fixedBuNodes
      = [ "SUPERVISER", "DCDC_Primary"] ++
        [ "DCDC_Primary_1", "DCDC_Primary_2"] := by
  exact ⟨by cases mode <;> rfl, rfl⟩

end DCDC
